import Mathlib

/-!
Shallow embedding of the online_status heartbeat server
(src/src/main.rs, src/src/server.rs) and proofs about its
liveness registry and heartbeat verifier.

Machine integers (`u64`) are modelled as `Nat` together with explicit
wrapping operations `wadd`/`wsub` reflecting release-mode Rust
arithmetic (two's-complement wraparound modulo 2^64).  The registry
`HashMap<IpAddr, u64>` is modelled as an association list with the
invariant of no duplicate keys; `insert` replaces the value of an
existing key in place and otherwise appends, and `retain` is `filter`,
matching the observable semantics of the Rust map.
-/

namespace OnlineStatus

/-- 2^64, the modulus of Rust `u64` arithmetic. -/
def U64MOD : Nat := 18446744073709551616

/-- Wrapping 64-bit addition, the semantics of release-mode `a + b` on `u64`. -/
def wadd (a b : Nat) : Nat := (a + b) % U64MOD

/-- Wrapping 64-bit subtraction, the semantics of release-mode `a - b` on `u64`. -/
def wsub (a b : Nat) : Nat := (a + (U64MOD - b % U64MOD)) % U64MOD

/-- `const TIMEOUT: u64 = 5;` (main.rs line 27): freshness window in seconds. -/
def TIMEOUT : Nat := 5

/-- `const HEARTBEAT_INTERVAL: u64 = 60;` (main.rs line 28). -/
def HEARTBEAT_INTERVAL : Nat := 60

/-- `const OFFLINE_TIMEOUT: u64 = 300;` (main.rs line 29). -/
def OFFLINE_TIMEOUT : Nat := 300

/-- `const ZOMBIE_TIMEOUT: u64 = 3600;` (main.rs line 30). -/
def ZOMBIE_TIMEOUT : Nat := 3600

/-- A socket address as the server observes it: an IP address (modelled
abstractly as a `Nat`) together with a source port.  `SocketAddr::ip()`
is the `ip` projection. -/
structure SocketAddr where
  ip : Nat
  port : Nat
deriving DecidableEq, Repr

/-- The wire-level heartbeat body (`struct HeartBeat` / `ClientInfo`):
`{ timestamp: u64, signature: Option<Vec<String>> }` where each string
is a hex encoding of one signature component. -/
structure HeartBeat where
  timestamp : Nat
  signature : Option (List String)
deriving DecidableEq, Repr

/-- The HTTP status codes the heartbeat handler can reject with. -/
inductive StatusCode where
  | unauthorized
  | badRequest
deriving DecidableEq, Repr

/-- The shape of a `pgp::errors::Error` as far as the handler inspects
it: the `SignatureError(_)` variant versus every other variant. -/
inductive PgpError where
  | SignatureError
  | OtherError
deriving DecidableEq, Repr

/-- The result of `public_key.verify_signature(hash, msg, sig)` for the
configured key, abstracted as a function from the decoded signature
components and the timestamp (whose ASCII-decimal bytes form the
message) to `none` on success or `some e` on failure.  The pgp
library's internals are external to this repository. -/
def VerifyFun : Type := List (List Nat) → Nat → Option PgpError

/-- The registry contents: `HashMap<IpAddr, u64>` as an association
list of (ip, last_seen) pairs. -/
abbrev Clients : Type := List (Nat × Nat)

/-- Hex value of one character, as the `hex` crate accepts it
(`0-9`, `a-f`, `A-F`). -/
def hexVal (c : Char) : Option Nat :=
  if '0' ≤ c ∧ c ≤ '9' then some (c.toNat - '0'.toNat)
  else if 'a' ≤ c ∧ c ≤ 'f' then some (c.toNat - 'a'.toNat + 10)
  else if 'A' ≤ c ∧ c ≤ 'F' then some (c.toNat - 'A'.toNat + 10)
  else none

/-- `hex::decode` on a character list: fails on odd length or on any
non-hex character, otherwise yields the byte list. -/
def hexDecodeList : List Char → Option (List Nat)
  | [] => some []
  | [_] => none
  | c1 :: c2 :: rest => do
      let hi ← hexVal c1
      let lo ← hexVal c2
      let ds ← hexDecodeList rest
      pure ((16 * hi + lo) :: ds)

/-- `hex::decode` on a string. -/
def hexDecode (s : String) : Option (List Nat) := hexDecodeList s.data

/-- The handler's signature decoding loop
(`signature.into_iter().map(|s| hex::decode(s).unwrap())`): decodes
every component, failing (panicking) on the first malformed one. -/
def hexDecodeAll : List String → Option (List (List Nat))
  | [] => some []
  | s :: rest => do
      let d ← hexDecode s
      let ds ← hexDecodeAll rest
      pure (d :: ds)

/-- `clients.insert(k, v)`: replace the value of an existing key,
otherwise add the binding. -/
def hmInsert (m : Clients) (k v : Nat) : Clients :=
  if m.any (fun p => p.1 == k) then
    m.map (fun p => if p.1 == k then (k, v) else p)
  else
    m ++ [(k, v)]

/-- Number of records stored under key `k`. -/
def countKey (m : Clients) (k : Nat) : Nat :=
  (m.filter (fun p => p.1 == k)).length

/-- `clients.get(&k)`: the stored `last_seen` for key `k`, if any. -/
def lookupKey (m : Clients) (k : Nat) : Option Nat :=
  match m.find? (fun p => p.1 == k) with
  | some p => some p.2
  | none => none

/-- The HashMap invariant: at most one record per key. -/
def NodupKeys (m : Clients) : Prop := (m.map Prod.fst).Nodup

instance (m : Clients) : Decidable (NodupKeys m) := by
  unfold NodupKeys
  infer_instance

/-- The tail of the heartbeat handler after authentication
(server.rs lines 131-141): freshness check `now - info.timestamp >
TIMEOUT` with wrapping `u64` subtraction, then
`clients.insert(addr.ip(), now)` on acceptance. -/
def heartbeatAfterAuth (addr : SocketAddr) (clients : Clients)
    (info : HeartBeat) (now : Nat) :
    Except StatusCode String × Clients :=
  if wsub now info.timestamp > TIMEOUT then
    (Except.error StatusCode.badRequest, clients)
  else
    (Except.ok "Heartbeat received", hmInsert clients addr.ip now)

/-- The heartbeat handler (server.rs lines 105-142).  `publicKey` is
`Some` exactly when a verification key is configured; the response is
paired with the registry contents after the call.  The outer `Option`
models panics: `hex::decode(s).unwrap()` panics (result `none`) when
any signature component is not valid hex. -/
def heartbeat (publicKey : Option VerifyFun) (addr : SocketAddr)
    (clients : Clients) (info : HeartBeat) (now : Nat) :
    Option (Except StatusCode String × Clients) :=
  match publicKey with
  | some verify =>
      match info.signature with
      | some strs =>
          match hexDecodeAll strs with
          | none => none
          | some sig =>
              match verify sig info.timestamp with
              | none => some (heartbeatAfterAuth addr clients info now)
              | some PgpError.SignatureError =>
                  some (Except.error StatusCode.unauthorized, clients)
              | some PgpError.OtherError =>
                  some (Except.error StatusCode.badRequest, clients)
      | none => some (Except.error StatusCode.unauthorized, clients)
  | none => some (heartbeatAfterAuth addr clients info now)

/-- The status handler (server.rs lines 144-157): return "ONLINE" as
soon as some record satisfies `last_seen + OFFLINE_TIMEOUT >= now`
(wrapping `u64` addition); otherwise retain only the records with
`now - last_seen <= ZOMBIE_TIMEOUT` (wrapping `u64` subtraction) and
return "OFFLINE".  The response is paired with the registry contents
after the call. -/
def status (clients : Clients) (now : Nat) : String × Clients :=
  if clients.any (fun p => decide (now ≤ wadd p.2 OFFLINE_TIMEOUT)) then
    ("ONLINE", clients)
  else
    ("OFFLINE", clients.filter (fun p => decide (wsub now p.2 ≤ ZOMBIE_TIMEOUT)))

lemma wadd_eq_add (a b : Nat) (h : a + b < U64MOD) : wadd a b = a + b :=
  Nat.mod_eq_of_lt h

lemma wsub_eq_sub (a b : Nat) (hb : b ≤ a) (ha : a < U64MOD) : wsub a b = a - b := by
  have hbm : b < U64MOD := lt_of_le_of_lt hb ha
  unfold wsub
  rw [Nat.mod_eq_of_lt hbm]
  have h1 : a + (U64MOD - b) = U64MOD + (a - b) := by omega
  rw [h1, Nat.add_mod_left]
  exact Nat.mod_eq_of_lt (by omega)

/-- Claim C1: for every registry map and query time, the status
operation returns ONLINE if and only if at least one stored record
satisfies last_seen + OFFLINE_TIMEOUT >= now (the code's 64-bit
addition), and otherwise it returns OFFLINE. -/
theorem status_online_iff (clients : Clients) (now : Nat) :
    ((status clients now).1 = "ONLINE" ↔
      ∃ p ∈ clients, now ≤ wadd p.2 OFFLINE_TIMEOUT) ∧
    ((status clients now).1 = "OFFLINE" ↔
      ¬ ∃ p ∈ clients, now ≤ wadd p.2 OFFLINE_TIMEOUT) := by
  have hiff : clients.any (fun p => decide (now ≤ wadd p.2 OFFLINE_TIMEOUT)) = true ↔
      ∃ p ∈ clients, now ≤ wadd p.2 OFFLINE_TIMEOUT := by
    simp [List.any_eq_true]
  unfold status
  by_cases h : clients.any (fun p => decide (now ≤ wadd p.2 OFFLINE_TIMEOUT)) = true
  · rw [if_pos h]
    refine ⟨⟨fun _ => hiff.mp h, fun _ => rfl⟩,
      ⟨fun habs => by simp at habs, fun hn => absurd (hiff.mp h) hn⟩⟩
  · rw [if_neg h]
    exact ⟨⟨fun habs => by simp at habs, fun hex => absurd (hiff.mpr hex) h⟩,
      ⟨fun _ => fun hex => h (hiff.mpr hex), fun _ => rfl⟩⟩

/-- Claim C4: the status operation removes records only on the OFFLINE
path.  When it returns ONLINE the map is unchanged; when it returns
OFFLINE the resulting map holds exactly the records satisfying
now - last_seen <= ZOMBIE_TIMEOUT (the code's 64-bit subtraction), so
exactly those with now - last_seen > ZOMBIE_TIMEOUT are removed. -/
theorem status_prunes_only_offline (clients : Clients) (now : Nat) :
    ((status clients now).1 = "ONLINE" → (status clients now).2 = clients) ∧
    ((status clients now).1 = "OFFLINE" →
      ∀ p : Nat × Nat,
        p ∈ (status clients now).2 ↔ p ∈ clients ∧ wsub now p.2 ≤ ZOMBIE_TIMEOUT) := by
  unfold status
  by_cases h : clients.any (fun p => decide (now ≤ wadd p.2 OFFLINE_TIMEOUT)) = true
  · rw [if_pos h]
    exact ⟨fun _ => rfl, fun habs => by simp at habs⟩
  · rw [if_neg h]
    refine ⟨fun habs => by simp at habs, fun _ p => ?_⟩
    simp [List.mem_filter]

/-- Claim C4 witness: concrete instances of both branches. -/
theorem status_prunes_only_offline_witness :
    (status [(1, 100)] 50).2 = [(1, 100)] ∧
    ((3, 7) ∈ (status [(1, 100), (3, 7)] 5000).2 ↔
      (3, 7) ∈ ([(1, 100), (3, 7)] : Clients) ∧ wsub 5000 7 ≤ ZOMBIE_TIMEOUT) :=
  ⟨(status_prunes_only_offline [(1, 100)] 50).1 (by decide),
   (status_prunes_only_offline [(1, 100), (3, 7)] 5000).2 (by decide) (3, 7)⟩

/-- Claim C5: calling status twice with the same time and no
intervening record leaves the same result and the same map: the second
call removes nothing the first did not already remove. -/
theorem status_idempotent (clients : Clients) (now : Nat) :
    (status (status clients now).2 now).1 = (status clients now).1 ∧
    (status (status clients now).2 now).2 = (status clients now).2 := by
  by_cases h : clients.any (fun p => decide (now ≤ wadd p.2 OFFLINE_TIMEOUT)) = true
  · have honline : status clients now = ("ONLINE", clients) := by
      unfold status; rw [if_pos h]
    refine ⟨?_, ?_⟩ <;> simp [honline]
  · have hoffline : status clients now =
        ("OFFLINE", clients.filter (fun p => decide (wsub now p.2 ≤ ZOMBIE_TIMEOUT))) := by
      unfold status; rw [if_neg h]
    have h2 : ¬ ((clients.filter (fun p => decide (wsub now p.2 ≤ ZOMBIE_TIMEOUT))).any
        (fun p => decide (now ≤ wadd p.2 OFFLINE_TIMEOUT)) = true) := by
      intro hany
      apply h
      rw [List.any_eq_true] at hany ⊢
      obtain ⟨p, hp, hfp⟩ := hany
      exact ⟨p, (List.mem_filter.mp hp).1, hfp⟩
    have hfilter : (clients.filter (fun p => decide (wsub now p.2 ≤ ZOMBIE_TIMEOUT))).filter
        (fun p => decide (wsub now p.2 ≤ ZOMBIE_TIMEOUT)) =
        clients.filter (fun p => decide (wsub now p.2 ≤ ZOMBIE_TIMEOUT)) :=
      List.filter_eq_self.mpr (fun p hp => (List.mem_filter.mp hp).2)
    have hoffline2 : status (clients.filter
        (fun p => decide (wsub now p.2 ≤ ZOMBIE_TIMEOUT))) now =
        ("OFFLINE", clients.filter (fun p => decide (wsub now p.2 ≤ ZOMBIE_TIMEOUT))) := by
      unfold status; rw [if_neg h2, hfilter]
    refine ⟨?_, ?_⟩ <;> simp [hoffline, hoffline2]

/-- Claim C10 counterexample: with a (type-wise admissible) record
whose last_seen is 2^64 - 1 and now = 300, the pruning step is reached
(the call returns OFFLINE) yet last_seen + OFFLINE_TIMEOUT < now fails,
last_seen < now fails, and the prune predicate's 64-bit subtraction
wraps: wsub 300 (2^64 - 1) = 301 instead of an actual difference. -/
theorem status_prune_underflow_cex :
    (status [(0, U64MOD - 1)] 300).1 = "OFFLINE" ∧
    ¬ (U64MOD - 1 + OFFLINE_TIMEOUT < 300) ∧
    ¬ (U64MOD - 1 < 300) ∧
    wsub 300 (U64MOD - 1) = 301 := by
  refine ⟨rfl, by decide, by decide, rfl⟩

/-- Claim C10 (amended): provided now and every record's freshness sum
last_seen + OFFLINE_TIMEOUT fit in 64 bits (true of every value the
handler can store from a clock reading), whenever the status operation
reaches its pruning step every record satisfies
last_seen + OFFLINE_TIMEOUT < now, hence last_seen < now, and the
subtraction now - last_seen in the prune predicate computes the exact
difference without underflow. -/
theorem status_prune_no_underflow (clients : Clients) (now : Nat)
    (hnow : now < U64MOD)
    (hbound : ∀ p ∈ clients, p.2 + OFFLINE_TIMEOUT < U64MOD)
    (hoff : (status clients now).1 = "OFFLINE") :
    ∀ p ∈ clients, p.2 + OFFLINE_TIMEOUT < now ∧ p.2 < now ∧
      wsub now p.2 = now - p.2 := by
  intro p hp
  have hany : ¬ (clients.any (fun q => decide (now ≤ wadd q.2 OFFLINE_TIMEOUT)) = true) := by
    intro hany
    unfold status at hoff
    rw [if_pos hany] at hoff
    simp at hoff
  have hnot : ¬ (now ≤ wadd p.2 OFFLINE_TIMEOUT) := by
    intro hle
    exact hany (List.any_eq_true.mpr ⟨p, hp, decide_eq_true hle⟩)
  have hwadd : wadd p.2 OFFLINE_TIMEOUT = p.2 + OFFLINE_TIMEOUT :=
    wadd_eq_add _ _ (hbound p hp)
  rw [hwadd] at hnot
  have h1 : p.2 + OFFLINE_TIMEOUT < now := by omega
  have h2 : p.2 < now := by omega
  exact ⟨h1, h2, wsub_eq_sub now p.2 (le_of_lt h2) hnow⟩

/-- Claim C10 witness: a concrete offline registry where the amended
theorem applies. -/
theorem status_prune_no_underflow_witness :
    10 + OFFLINE_TIMEOUT < 1000 ∧ 10 < 1000 ∧ wsub 1000 10 = 1000 - 10 :=
  status_prune_no_underflow [(0, 10)] 1000 (by decide) (by decide) (by decide)
    (0, 10) (by decide)

lemma map_fst_replace (m : Clients) (k v : Nat) :
    (m.map (fun p => if p.1 == k then (k, v) else p)).map Prod.fst = m.map Prod.fst := by
  induction m with
  | nil => rfl
  | cons p m ih =>
      simp only [List.map_cons, ih]
      by_cases hpk : p.1 = k
      · simp [hpk]
      · simp [hpk]

lemma nodupKeys_hmInsert (m : Clients) (k v : Nat) (h : NodupKeys m) :
    NodupKeys (hmInsert m k v) := by
  unfold hmInsert
  by_cases hmem : m.any (fun p => p.1 == k) = true
  · rw [if_pos hmem]
    unfold NodupKeys at *
    rw [map_fst_replace]
    exact h
  · rw [if_neg hmem]
    unfold NodupKeys at *
    rw [List.map_append, List.nodup_append]
    refine ⟨h, List.nodup_singleton k, ?_⟩
    intro a ha hb
    rw [List.mem_map] at ha
    obtain ⟨p, hp, hpk⟩ := ha
    apply hmem
    rw [List.any_eq_true]
    refine ⟨p, hp, ?_⟩
    have hak : a = k := by simpa using hb
    simp [hpk, hak]

lemma nodupKeys_filter (m : Clients) (f : Nat × Nat → Bool) (hnd : NodupKeys m) :
    NodupKeys (m.filter f) :=
  List.Nodup.sublist (List.Sublist.map Prod.fst (List.filter_sublist m)) hnd

lemma filter_key_nil (m : Clients) (k : Nat)
    (h : m.any (fun p => p.1 == k) = false) :
    m.filter (fun p => p.1 == k) = [] := by
  rw [List.filter_eq_nil_iff]
  exact List.any_eq_false.mp h

lemma countKey_replace (m : Clients) (k v : Nat) :
    countKey (m.map (fun p => if p.1 == k then (k, v) else p)) k = countKey m k := by
  induction m with
  | nil => rfl
  | cons p m ih =>
      unfold countKey at *
      by_cases hpk : (p.1 == k) = true
      · have hif : (if p.1 == k then (k, v) else p) = (k, v) := if_pos hpk
        have hkk : ((k, v).1 == k) = true := by simp
        rw [List.map_cons, hif, List.filter_cons, List.filter_cons,
          if_pos hkk, if_pos hpk, List.length_cons, List.length_cons, ih]
      · have hif : (if p.1 == k then (k, v) else p) = p := if_neg hpk
        rw [List.map_cons, hif, List.filter_cons, List.filter_cons,
          if_neg hpk, if_neg hpk]
        exact ih

lemma countKey_eq_one (m : Clients) (k : Nat) (hnd : NodupKeys m)
    (hmem : m.any (fun p => p.1 == k) = true) : countKey m k = 1 := by
  induction m with
  | nil => simp at hmem
  | cons p m ih =>
      unfold NodupKeys at hnd
      rw [List.map_cons, List.nodup_cons] at hnd
      obtain ⟨hp1, hnd'⟩ := hnd
      unfold countKey
      rw [List.filter_cons]
      by_cases hpk : p.1 = k
      · have hfil : m.filter (fun q => q.1 == k) = [] := by
          rw [List.filter_eq_nil_iff]
          intro q hq hqk
          apply hp1
          rw [List.mem_map]
          exact ⟨q, hq, by rw [show q.1 = k by simpa using hqk, hpk]⟩
        simp [hpk, hfil]
      · have hm : m.any (fun q => q.1 == k) = true := by
          rw [List.any_cons] at hmem
          simpa [hpk] using hmem
        have hpkb : (p.1 == k) = false := by simp [hpk]
        rw [hpkb]
        simpa using ih hnd' hm

lemma find_replace (m : Clients) (k v : Nat)
    (hmem : m.any (fun p => p.1 == k) = true) :
    (m.map (fun p => if p.1 == k then (k, v) else p)).find? (fun p => p.1 == k) =
      some (k, v) := by
  induction m with
  | nil => simp at hmem
  | cons p m ih =>
      rw [List.map_cons]
      by_cases hpk : (p.1 == k) = true
      · have hif : (if p.1 == k then (k, v) else p) = (k, v) := if_pos hpk
        rw [hif]
        exact List.find?_cons_of_pos _ (by simp)
      · have hif : (if p.1 == k then (k, v) else p) = p := if_neg hpk
        have hm : m.any (fun q => q.1 == k) = true := by
          rw [List.any_cons] at hmem
          simpa [hpk] using hmem
        rw [hif]
        exact (@List.find?_cons_of_neg (Nat × Nat) (fun q => q.1 == k) p
          (List.map (fun q => if q.1 == k then (k, v) else q) m) hpk).trans (ih hm)

lemma find_append (m : Clients) (k v : Nat)
    (hmem : m.any (fun p => p.1 == k) = false) :
    (m ++ [(k, v)]).find? (fun p => p.1 == k) = some (k, v) := by
  induction m with
  | nil => simp
  | cons p m ih =>
      rw [List.any_cons, Bool.or_eq_false_iff] at hmem
      rw [List.cons_append]
      simp [hmem.1, ih hmem.2]

lemma countKey_hmInsert (m : Clients) (k v : Nat) (hnd : NodupKeys m) :
    countKey (hmInsert m k v) k = 1 := by
  unfold hmInsert
  by_cases hmem : m.any (fun p => p.1 == k) = true
  · rw [if_pos hmem, countKey_replace]
    exact countKey_eq_one m k hnd hmem
  · have hf : m.any (fun p => p.1 == k) = false := by
      cases h : m.any (fun p => p.1 == k)
      · rfl
      · exact absurd h hmem
    rw [if_neg hmem]
    unfold countKey
    rw [List.filter_append, filter_key_nil m k hf]
    simp

lemma lookupKey_hmInsert (m : Clients) (k v : Nat) :
    lookupKey (hmInsert m k v) k = some v := by
  unfold hmInsert lookupKey
  by_cases hmem : m.any (fun p => p.1 == k) = true
  · rw [if_pos hmem, find_replace m k v hmem]
  · have hf : m.any (fun p => p.1 == k) = false := by
      cases h : m.any (fun p => p.1 == k)
      · rfl
      · exact absurd h hmem
    rw [if_neg hmem, find_append m k v hf]

lemma heartbeat_ok_registry (pk : Option VerifyFun) (addr : SocketAddr)
    (clients : Clients) (info : HeartBeat) (now : Nat) (r : String) (m' : Clients)
    (h : heartbeat pk addr clients info now = some (Except.ok r, m')) :
    m' = hmInsert clients addr.ip now := by
  unfold heartbeat heartbeatAfterAuth at h
  repeat' split at h
  all_goals simp_all

/-- Claim C2 counterexample: with a verification key configured, an
assertion whose signature list contains a component that is not valid
hex ("zz" here) makes the handler panic (the unwrap on hex decoding,
modelled as result none); it does not reject with BadRequest as the
claim states. -/
theorem heartbeat_malformed_hex_panics :
    heartbeat (some (fun _ _ => none)) ⟨0, 0⟩ [] ⟨0, some ["zz"]⟩ 0 = none ∧
    heartbeat (some (fun _ _ => none)) ⟨0, 0⟩ [] ⟨0, some ["zz"]⟩ 0 ≠
      some (Except.error StatusCode.badRequest, []) :=
  ⟨rfl, fun h => Option.noConfusion ((rfl :
    heartbeat (some (fun _ _ => none)) ⟨0, 0⟩ [] ⟨0, some ["zz"]⟩ 0 = none).symm.trans h)⟩

/-- Claim C2 (amended): when a verification key is configured, the
handler rejects a missing signature with Unauthorized, rejects a
signature-specific verification failure with Unauthorized, and rejects
any other verification error with BadRequest; but a malformed hex
component makes it panic (the unwrap on hex decoding) instead of
returning BadRequest. -/
theorem heartbeat_auth_dispatch (verify : VerifyFun) (addr : SocketAddr)
    (clients : Clients) (info : HeartBeat) (now : Nat) :
    (info.signature = none →
      heartbeat (some verify) addr clients info now =
        some (Except.error StatusCode.unauthorized, clients)) ∧
    (∀ strs, info.signature = some strs → hexDecodeAll strs = none →
      heartbeat (some verify) addr clients info now = none) ∧
    (∀ strs sig, info.signature = some strs → hexDecodeAll strs = some sig →
      verify sig info.timestamp = some PgpError.SignatureError →
      heartbeat (some verify) addr clients info now =
        some (Except.error StatusCode.unauthorized, clients)) ∧
    (∀ strs sig, info.signature = some strs → hexDecodeAll strs = some sig →
      verify sig info.timestamp = some PgpError.OtherError →
      heartbeat (some verify) addr clients info now =
        some (Except.error StatusCode.badRequest, clients)) := by
  refine ⟨fun hs => ?_, fun strs hs hm => ?_,
    fun strs sig hs hm hv => ?_, fun strs sig hs hm hv => ?_⟩ <;>
    unfold heartbeat <;> simp_all

/-- Claim C2 witness: concrete runs of the missing-signature and
forged-signature branches of the amended dispatch. -/
theorem heartbeat_auth_dispatch_witness :
    heartbeat (some (fun _ _ => some PgpError.SignatureError)) ⟨0, 0⟩ [] ⟨0, some []⟩ 0 =
      some (Except.error StatusCode.unauthorized, []) ∧
    heartbeat (some (fun _ _ => none)) ⟨0, 0⟩ [] ⟨0, none⟩ 0 =
      some (Except.error StatusCode.unauthorized, []) :=
  ⟨(heartbeat_auth_dispatch (fun _ _ => some PgpError.SignatureError)
      ⟨0, 0⟩ [] ⟨0, some []⟩ 0).2.2.1 [] [] rfl rfl rfl,
   (heartbeat_auth_dispatch (fun _ _ => none) ⟨0, 0⟩ [] ⟨0, none⟩ 0).1 rfl⟩

/-- Claim C3: at now = 100 with an assertion timestamp of 101 (one
second in the future, unauthenticated mode), the freshness
subtraction wraps to 2^64 - 1, which exceeds TIMEOUT, so the handler
rejects with BadRequest — the code neither treats future timestamps as
automatically fresh nor clamps the difference to zero. -/
theorem heartbeat_future_timestamp_wraps :
    wsub 100 101 = U64MOD - 1 ∧
    heartbeat none ⟨0, 0⟩ [] ⟨101, none⟩ 100 =
      some (Except.error StatusCode.badRequest, []) :=
  ⟨rfl, rfl⟩

/-- Claim C6: inserting a record for an identity twice (record(id, t)
then record(id, t2) with t2 > t) leaves exactly one record for that
identity, holding t2; and both registry operations (insert and the
status call's pruning) preserve the at-most-one-record-per-identity
invariant. -/
theorem record_upsert (clients : Clients) (ip t t2 now : Nat)
    (hnd : NodupKeys clients) (hlt : t < t2) :
    countKey (hmInsert (hmInsert clients ip t) ip t2) ip = 1 ∧
    lookupKey (hmInsert (hmInsert clients ip t) ip t2) ip = some t2 ∧
    NodupKeys (hmInsert clients ip t) ∧
    NodupKeys ((status clients now).2) := by
  have hnd1 : NodupKeys (hmInsert clients ip t) := nodupKeys_hmInsert _ _ _ hnd
  refine ⟨countKey_hmInsert _ _ _ hnd1, lookupKey_hmInsert _ _ _, hnd1, ?_⟩
  unfold status
  by_cases h : clients.any (fun p => decide (now ≤ wadd p.2 OFFLINE_TIMEOUT)) = true
  · rw [if_pos h]
    exact hnd
  · rw [if_neg h]
    exact nodupKeys_filter _ _ hnd

/-- Claim C6 witness: a concrete double insert on an empty registry. -/
theorem record_upsert_witness :
    countKey (hmInsert (hmInsert [] 7 1) 7 2) 7 = 1 ∧
    lookupKey (hmInsert (hmInsert [] 7 1) 7 2) 7 = some 2 ∧
    NodupKeys (hmInsert [] 7 1) ∧
    NodupKeys ((status [] 0).2) :=
  record_upsert [] 7 1 2 0 (by decide) (by decide)

/-- Claim C7: an assertion that passes authentication (or arrives in
unauthenticated mode) but is stale — now - timestamp > TIMEOUT under
the code's 64-bit subtraction — is rejected with BadRequest and the
registry is left unchanged. -/
theorem heartbeat_stale_rejected (pk : Option VerifyFun) (addr : SocketAddr)
    (clients : Clients) (info : HeartBeat) (now : Nat)
    (hstale : wsub now info.timestamp > TIMEOUT) :
    (pk = none →
      heartbeat pk addr clients info now =
        some (Except.error StatusCode.badRequest, clients)) ∧
    (∀ verify strs sig, pk = some verify → info.signature = some strs →
      hexDecodeAll strs = some sig → verify sig info.timestamp = none →
      heartbeat pk addr clients info now =
        some (Except.error StatusCode.badRequest, clients)) := by
  constructor
  · intro hpk
    subst hpk
    unfold heartbeat heartbeatAfterAuth
    rw [if_pos hstale]
  · intro verify strs sig hpk hsig hdec hv
    subst hpk
    unfold heartbeat heartbeatAfterAuth
    simp only [hsig, hdec, hv]
    rw [if_pos hstale]

/-- Claim C7 witness: a stale assertion (timestamp 0 at now = 100) in
both the unauthenticated mode and under a succeeding verifier. -/
theorem heartbeat_stale_rejected_witness :
    heartbeat none ⟨0, 0⟩ [] ⟨0, none⟩ 100 =
      some (Except.error StatusCode.badRequest, []) ∧
    heartbeat (some (fun _ _ => none)) ⟨0, 0⟩ [] ⟨0, some []⟩ 100 =
      some (Except.error StatusCode.badRequest, []) :=
  ⟨(heartbeat_stale_rejected none ⟨0, 0⟩ [] ⟨0, none⟩ 100 (by decide)).1 rfl,
   (heartbeat_stale_rejected (some (fun _ _ => none)) ⟨0, 0⟩ [] ⟨0, some []⟩ 100
      (by decide)).2 (fun _ _ => none) [] [] rfl rfl rfl rfl⟩

/-- Claim C8: whenever the heartbeat handler returns an error response
(400 or 401), the registry is exactly as it was before the request. -/
theorem heartbeat_error_frame (pk : Option VerifyFun) (addr : SocketAddr)
    (clients : Clients) (info : HeartBeat) (now : Nat)
    (c : StatusCode) (m' : Clients)
    (h : heartbeat pk addr clients info now = some (Except.error c, m')) :
    m' = clients := by
  unfold heartbeat heartbeatAfterAuth at h
  repeat' split at h
  all_goals simp_all

/-- Claim C8 witness: a concrete rejected request leaves the empty
registry empty. -/
theorem heartbeat_error_frame_witness : ([] : Clients) = ([] : Clients) :=
  heartbeat_error_frame none ⟨0, 0⟩ [] ⟨0, none⟩ 100 StatusCode.badRequest [] rfl

/-- Claim C9: the registry is keyed by the caller's IP address alone;
two accepted heartbeats from the same IP with different source ports
update the same record, leaving exactly one record for that IP, whose
last_seen is the second call's time. -/
theorem registry_keyed_by_ip (pk : Option VerifyFun) (clients : Clients)
    (ip p1 p2 : Nat) (info1 info2 : HeartBeat) (now1 now2 : Nat)
    (r1 r2 : String) (m1 m2 : Clients)
    (hnd : NodupKeys clients)
    (h1 : heartbeat pk ⟨ip, p1⟩ clients info1 now1 = some (Except.ok r1, m1))
    (h2 : heartbeat pk ⟨ip, p2⟩ m1 info2 now2 = some (Except.ok r2, m2)) :
    countKey m2 ip = 1 ∧ lookupKey m2 ip = some now2 := by
  have e1 : m1 = hmInsert clients ip now1 :=
    heartbeat_ok_registry pk ⟨ip, p1⟩ clients info1 now1 r1 m1 h1
  have e2 : m2 = hmInsert m1 ip now2 :=
    heartbeat_ok_registry pk ⟨ip, p2⟩ m1 info2 now2 r2 m2 h2
  have hnd1 : NodupKeys m1 := by
    rw [e1]
    exact nodupKeys_hmInsert _ _ _ hnd
  rw [e2]
  exact ⟨countKey_hmInsert _ _ _ hnd1, lookupKey_hmInsert _ _ _⟩

/-- Claim C9 witness: two fresh unauthenticated heartbeats from IP 5,
ports 1 then 2, leave one record for IP 5 holding the second time. -/
theorem registry_keyed_by_ip_witness :
    countKey [(5, 12)] 5 = 1 ∧ lookupKey [(5, 12)] 5 = some 12 :=
  registry_keyed_by_ip none [] 5 1 2 ⟨10, none⟩ ⟨12, none⟩ 10 12
    "Heartbeat received" "Heartbeat received" [(5, 10)] [(5, 12)]
    (by decide) rfl rfl

end OnlineStatus
